import Mathlib

/-!
# Verification of the room-exploration engine (`ambiguously` / `slowly` variants)

A shallow embedding of the identity-resolution and graph-reconstruction
engine: the candidate-room data model (`src/ambiguously/room.py`), the
candidate store (`src/ambiguously/room_manager.py`), the observation
processor and return-door discovery (`src/ambiguously/problem.py`), the
echo-separation parser (`src/ambiguously/api_client.py`), the solution
emitter (`src/ambiguously/solution_generator.py`) and the exploration
scheduler (`src/slowly/exploration_strategy.py`).

Python objects are modelled functionally: the mutable list
`RoomManager.possible_rooms` becomes an explicit list of `Room` values,
aliased room objects become indices into that list, and every mutating
method returns the updated state.  Oracle (HTTP) calls are modelled by
explicit response parameters.  Machine integers are `Nat` (door and label
values are small and never overflow in the source).
-/

namespace RoomExploration

/-- A candidate room, from `src/ambiguously/room.py` (`Room.__init__`).
`label` is the room's 2-bit label (`None` until observed), `doorLabels`
the six labels observed through each door (`None` until probed),
`paths` the list of paths known to reach this room, `disambiguationId`
the id distinguishing fingerprint-identical rooms, and
`pathToRoot`/`pathFromRoot` the systematic-exploration navigation data. -/
structure Room where
  label : Option Nat := none
  paths : List (List Nat) := []
  doorLabels : List (Option Nat) := [none, none, none, none, none, none]
  disambiguationId : Option Nat := none
  pathToRoot : List Nat := []
  pathFromRoot : List Nat := []
deriving DecidableEq, Repr

namespace Room

/-- `Room.add_path`: record a path leading to this room, skipping duplicates. -/
def add_path (r : Room) (path : List Nat) : Room :=
  if path ∈ r.paths then r else { r with paths := r.paths ++ [path] }

/-- `Room.set_door_label`: set the label of the room reachable through a
door.  The Python guard is `0 <= door <= 5`; doors outside that range are
ignored.  The stored value is written unconditionally. -/
def set_door_label (r : Room) (door : Nat) (label : Option Nat) : Room :=
  if door ≤ 5 then { r with doorLabels := r.doorLabels.set door label } else r

/-- `Room.is_complete`: the room label and all six door labels are known. -/
def is_complete (r : Room) : Bool :=
  r.label.isSome && r.doorLabels.all (·.isSome)

/-- `Room.get_known_doors`. -/
def get_known_doors (r : Room) : List Nat :=
  (r.doorLabels.enum.filter (fun p => p.2.isSome)).map (·.1)

/-- `Room.get_unknown_doors`. -/
def get_unknown_doors (r : Room) : List Nat :=
  (r.doorLabels.enum.filter (fun p => p.2.isNone)).map (·.1)

/-- Render an optional label as the fingerprint fragment (`"?"` if unknown). -/
def labelStr : Option Nat → String
  | none => "?"
  | some l => toString l

/-- `Room.get_fingerprint`: `label ++ "-" ++ door labels [++ "-" ++ id]`,
with `"?"` for every unknown slot.  (`includeDisambiguation` defaults to
`True` in the source; callers here always pass it explicitly.) -/
def get_fingerprint (r : Room) (includeDisambiguation : Bool) : String :=
  let base := labelStr r.label ++ "-" ++ String.join (r.doorLabels.map labelStr)
  if includeDisambiguation then base ++ "-" ++ labelStr r.disambiguationId else base

end Room

/-! ## Plan strings and the echo-separation parser (`src/ambiguously/api_client.py`) -/

/-- One operation of a plan string: a door move (digit character) or a
label edit (`[v]` group). -/
inductive POp where
  | move (door : Nat)
  | edit (value : Nat)
deriving DecidableEq, Repr

/-- Numeric value of a digit character, as Python's `int(c)`. -/
def charToLabel (c : Char) : Nat := c.toNat - 48

/-- Scan a plan string into its operations: each `[v]` group is an
`EditLabel`, every other character a `Move`.  This models the grouping
performed by the regexes `\[[0-3]\]` / `\[([0-3])\]` on the well-bracketed
plan strings the engine builds. -/
def planOps : List Char → List POp
  | '[' :: v :: ']' :: rest => .edit (charToLabel v) :: planOps rest
  | c :: rest => .move (charToLabel c) :: planOps rest
  | [] => []

/-- The edit values of an operation list, in order. -/
def editsOfOps (ops : List POp) : List Nat :=
  ops.filterMap fun op => match op with
    | .edit v => some v
    | .move _ => none

/-- The number of `Move` operations in an operation list. -/
def movesOfOps (ops : List POp) : Nat :=
  (ops.filter fun op => match op with
    | .move _ => true
    | .edit _ => false).length

/-- The edit values appearing in a plan, in order
(`re.findall(r'\[([0-3])\]', plan_string)`). -/
def editLabelsInPlan (s : List Char) : List Nat :=
  editsOfOps (planOps s)

/-- The number of `Move` operations in a plan. -/
def moveCount (s : List Char) : Nat :=
  movesOfOps (planOps s)

/-- `ApiClient.count_label_edits_in_plan`. -/
def count_label_edits_in_plan (planString : String) : Nat :=
  (editLabelsInPlan planString.data).length

/-- `[int(c) for c in response_labels]`. -/
def labelsOfString (s : String) : List Nat := s.data.map charToLabel

/-- The greedy separation loop of `parse_response_with_echoes`: walk the
observed labels; a label equal to the next pending edit value is
classified as an echo, every other label as an actual room label. -/
def greedySplit : List Nat → List Nat → List Nat × List Nat
  | [], _ => ([], [])
  | l :: ls, [] =>
    let r := greedySplit ls []
    (l :: r.1, r.2)
  | l :: ls, e :: es =>
    if l = e then
      let r := greedySplit ls es
      (r.1, l :: r.2)
    else
      let r := greedySplit ls (e :: es)
      (l :: r.1, r.2)

/-- `ApiClient.parse_response_with_echoes`: split a response label string
into (actual room labels, edit echoes). -/
def parse_response_with_echoes (planString responseLabels : String) :
    List Nat × List Nat :=
  let allLabels := labelsOfString responseLabels
  let expectedEchoes := editLabelsInPlan planString.data
  if expectedEchoes.length = 0 then (allLabels, [])
  else greedySplit allLabels expectedEchoes

/-- Modelled from the spec: the echo/real split "determined by the count
and position of the `EditLabel` ops in the plan" — observation slot `0` is
the start label, and the slot after the `i`-th operation is an echo
exactly when that operation is an `EditLabel`.  Used only to compare the
source parser against the spec's description. -/
def specEchoSplit : List POp → List Nat → List Nat × List Nat
  | _, [] => ([], [])
  | [], ls => (ls, [])
  | .move _ :: ops, l :: ls =>
    let r := specEchoSplit ops ls
    (l :: r.1, r.2)
  | .edit _ :: ops, l :: ls =>
    let r := specEchoSplit ops ls
    (r.1, l :: r.2)

/-- Modelled from the spec: the full structural split of a response
(start label kept, then `specEchoSplit` along the plan's operations). -/
def specParseResponse (planString responseLabels : String) :
    List Nat × List Nat :=
  match labelsOfString responseLabels with
  | [] => ([], [])
  | l0 :: rest =>
    let r := specEchoSplit (planOps planString.data) rest
    (l0 :: r.1, r.2)

/-! ## Candidate store (`src/ambiguously/room_manager.py`) and
observation processing (`src/ambiguously/problem.py`) -/

/-- One recorded oracle observation:
`{"plan": [...doors...], "rooms": [...labels...]}`. -/
structure Obs where
  plan : List Nat
  rooms : List Nat
deriving DecidableEq, Repr

/-- The candidate store: `RoomManager.__init__`. -/
structure RoomManager where
  roomCount : Nat
  possibleRooms : List Room := []
  observations : List Obs := []
deriving DecidableEq, Repr

/-- Replace the element at index `i` by `f` of it (in-place mutation of a
list entry in the source). -/
def updateAt (l : List α) (i : Nat) (f : α → α) : List α :=
  match l.get? i with
  | some a => l.set i (f a)
  | none => l

namespace RoomManager

/-- `RoomManager.get_complete_rooms`. -/
def get_complete_rooms (mgr : RoomManager) : List Room :=
  mgr.possibleRooms.filter (·.is_complete)

/-- `RoomManager.get_incomplete_rooms`. -/
def get_incomplete_rooms (mgr : RoomManager) : List Room :=
  mgr.possibleRooms.filter (fun r => !r.is_complete)

/-- `RoomManager.find_or_create_room_for_path`: look for an existing room
recording exactly this `(path, label)`; failing that, consolidate a
single-door path into the first room of the same label that also has a
single-door path (only when `room_count <= 3` and the store has not
outgrown `room_count`); otherwise append a fresh partial room.  Returned
is the updated store plus the index of the returned room object. -/
def find_or_create_room_for_path (mgr : RoomManager) (path : List Nat)
    (label : Nat) : RoomManager × Nat :=
  match mgr.possibleRooms.findIdx?
      (fun r => decide (path ∈ r.paths) && r.label == some label) with
  | some i => (mgr, i)
  | none =>
    let consolidated :=
      if path.length == 1 && decide (mgr.possibleRooms.length ≤ mgr.roomCount)
          && decide (mgr.roomCount ≤ 3) then
        mgr.possibleRooms.findIdx?
          (fun r => r.label == some label && r.paths.any (fun p => p.length == 1))
      else none
    match consolidated with
    | some i =>
      ({ mgr with possibleRooms := updateAt mgr.possibleRooms i (·.add_path path) }, i)
    | none =>
      let newRoom : Room := { label := some label, paths := [path] }
      ({ mgr with possibleRooms := mgr.possibleRooms ++ [newRoom] },
        mgr.possibleRooms.length)

end RoomManager

/-- Concatenation of door digits, `"".join(str(d) for d in path)`. -/
def pathStr (path : List Nat) : String :=
  String.join (path.map toString)

/-- Pick an edit label different from both rooms' labels, trying the
candidate values in the given order (the three source functions use the
orders `[0,1,2,3]`, `[2,3,1,0]` and `[1,2,3,0]`). -/
def chooseEditLabel (order : List Nat) (a b : Option Nat) : Option Nat :=
  order.find? (fun c => !(a == some c) && !(b == some c))

namespace Problem

/-- Whether one batched probe of `discover_return_door` hits the
temporary label: the parsed actual labels are nonempty and their last
entry equals `temp`. -/
def scanMatches (temp : Nat) (pr : String × String) : Bool :=
  match (parse_response_with_echoes pr.1 pr.2).1.getLast? with
  | some fin => fin == temp
  | none => false

/-- The scan over the six batched results in `discover_return_door`:
the first door whose parsed final label equals the temporary label. -/
def returnDoorScan (temp : Nat) : List (String × String) → Nat → Option Nat
  | [], _ => none
  | pr :: rest, i =>
    if scanMatches temp pr then some i else returnDoorScan temp rest (i + 1)

/-- The six batched plans of `discover_return_door`:
`path_to_from_room ++ "[temp]" ++ forward_door ++ check_door` for each
check door `0..5`. -/
def returnDoorPlans (fromRoom : Room) (temp forwardDoor : Nat) : List String :=
  (List.range 6).map (fun d =>
    pathStr (fromRoom.paths.headD []) ++ "[" ++ toString temp ++ "]"
      ++ toString forwardDoor ++ toString d)

/-- `Problem.discover_return_door`: pick a temporary label `e` outside
both rooms' labels, batch the six plans
`path_to_from_room ++ "[e]" ++ forward_door ++ check_door` in one oracle
call, and record `to_room.door_labels[d] = from_room.label` for the first
door `d` whose final label equals `e`.  The oracle is modelled as the
batch-response function; the result is the updated `to_room` together
with the door found (`none` = "Could not identify return door", a
non-fatal return). -/
def discover_return_door (oracle : List String → List String)
    (fromRoom toRoom : Room) (forwardDoor : Nat) : Room × Option Nat :=
  if fromRoom.paths.isEmpty || toRoom.paths.isEmpty then (toRoom, none)
  else
    match chooseEditLabel [0, 1, 2, 3] fromRoom.label toRoom.label with
    | none => (toRoom, none)
    | some temp =>
      let explorationPlans := returnDoorPlans fromRoom temp forwardDoor
      let results := oracle explorationPlans
      match returnDoorScan temp (explorationPlans.zip results) 0 with
      | some d => (toRoom.set_door_label d fromRoom.label, some d)
      | none => (toRoom, none)

/-- The per-door loop of `Problem.process_observation`: walk the path,
recording each door's destination label on the current room, finding or
creating the destination room, and (for a fresh connection out of a
complete room into a single-path destination) running return-door
discovery. -/
def processSteps (oracle : List String → List String) (roomsSeq : List Nat) :
    List Nat → Nat → List Nat → RoomManager → Nat → RoomManager
  | [], _, _, mgr, _ => mgr
  | door :: rest, i, prefixPath, mgr, currentIdx =>
    if i + 1 < roomsSeq.length then
      let destinationLabel := roomsSeq.getD (i + 1) 0
      let current := mgr.possibleRooms.getD currentIdx {}
      let wasDoorUnknown := (current.doorLabels.getD door none).isNone
      let mgr := { mgr with possibleRooms := (updateAt mgr.possibleRooms currentIdx
          (fun r => r.set_door_label door (some destinationLabel))) }
      let pathToDestination := prefixPath ++ [door]
      let fc := mgr.find_or_create_room_for_path pathToDestination destinationLabel
      let mgr := fc.1
      let destIdx := fc.2
      let current := mgr.possibleRooms.getD currentIdx {}
      let destination := mgr.possibleRooms.getD destIdx {}
      let mgr :=
        if wasDoorUnknown && current.is_complete && destination.paths.length == 1 then
          let disc := discover_return_door oracle current destination door
          { mgr with possibleRooms := updateAt mgr.possibleRooms destIdx (fun _ => disc.1) }
        else mgr
      processSteps oracle roomsSeq rest (i + 1) pathToDestination mgr destIdx
    else
      processSteps oracle roomsSeq rest (i + 1) prefixPath mgr currentIdx

/-- `Problem.process_observation`: fold one `(path, rooms)` observation
into the candidate store. -/
def process_observation (oracle : List String → List String)
    (mgr : RoomManager) (path rooms : List Nat) : RoomManager :=
  match rooms with
  | [] => mgr
  | startingLabel :: _ =>
    let fc := mgr.find_or_create_room_for_path [] startingLabel
    processSteps oracle rooms path 0 [] fc.1 fc.2

end Problem

/-! ## Disambiguation (`room_manager.py`: `disambiguate_rooms_with_path_navigation`,
`remove_duplicate_rooms`) -/

namespace RoomManager

/-- `RoomManager.disambiguate_rooms_with_path_navigation`: navigate to
`room_a`, edit its label, return to the root via `room_a`'s backlink
path, navigate to `room_b`, and read `room_b`'s final label.  `true`
means the rooms were confirmed different.  The oracle argument is the
batch-response list of the single `explore` call (empty list models the
`IndexError` path, which the `except` clause turns into `False`). -/
def disambiguate_rooms_with_path_navigation
    (oracle : List String → List String) (roomA roomB : Room) : Bool :=
  if roomA.paths.isEmpty || roomB.paths.isEmpty then false
  else
    let pathToA := roomA.paths.headD []
    let pathToB := roomB.paths.headD []
    match chooseEditLabel [2, 3, 1, 0] roomA.label roomB.label with
    | none => false
    | some editLabel =>
      if roomA.pathToRoot.isEmpty then false
      else
        let planString := pathStr pathToA ++ "[" ++ toString editLabel ++ "]"
          ++ pathStr roomA.pathToRoot ++ pathStr pathToB
        match oracle [planString] with
        | [] => false
        | response :: _ =>
          let actual := (parse_response_with_echoes planString response).1
          match actual.getLast? with
          | none => true
          | some finalLabel =>
            if roomB.label == some finalLabel then true
            else if finalLabel == editLabel then false
            else false

/-- The per-representative test inside the incremental loop of
`remove_duplicate_rooms`: a `Same` verdict (`verdict = some false`) or a
failed test (`none`, the `except` branch that assumes Same) stops the
scan.  `verdict a b = some true` means "confirmed different". -/
def sameAsExistingTest (verdict : Room → Room → Option Bool) (room : Room)
    (er : Nat × Room) : Bool :=
  match verdict er.2 room with
  | some true => false
  | some false => true
  | none => true

/-- The incremental loop of `remove_duplicate_rooms` over one group of
fingerprint-identical rooms: each `(index, room)` in turn (its id reset)
is tested against the already-confirmed-distinct rooms, stopping at the
first Same verdict; a room distinct from all of them is kept with the
next disambiguation id. -/
def incrementalDisambiguation (verdict : Room → Room → Option Bool) :
    List (Nat × Room) → List (Nat × Room) → Nat → List (Nat × Room)
  | [], confirmed, _ => confirmed
  | (idx, room) :: rest, confirmed, nextId =>
    let isSameAsExisting := confirmed.any
      (sameAsExistingTest verdict { room with disambiguationId := none })
    if isSameAsExisting then
      incrementalDisambiguation verdict rest confirmed nextId
    else
      incrementalDisambiguation verdict rest
        (confirmed ++ [(idx, { room with disambiguationId := some nextId })])
        (nextId + 1)

/-- The body of `remove_duplicate_rooms` for one group of rooms with an
identical complete base fingerprint (the `api_client` branch): run the
incremental disambiguation, then merge every unconfirmed room's paths
into the FIRST confirmed-distinct room and drop the merged rooms.  When
only one room survives, the legacy merge block re-merges the same rooms
into the same keeper (`rooms[0]`, which is always the first confirmed
room) with duplicate-skipping `add_path`, a no-op on the state.  The
result is the list of kept `(index, room)` pairs. -/
def processIdenticalGroup (verdict : Room → Room → Option Bool)
    (rooms : List (Nat × Room)) : List (Nat × Room) :=
  let confirmed := incrementalDisambiguation verdict rooms [] 0
  let confirmedIdxs := confirmed.map (·.1)
  let roomsToMerge := rooms.filter (fun p => !(confirmedIdxs.contains p.1))
  match confirmed with
  | [] => []
  | keeper :: others =>
    let keeperRoom := roomsToMerge.foldl
      (fun kr p => p.2.paths.foldl (fun kr path => kr.add_path path) kr) keeper.2
    (keeper.1, keeperRoom) :: others

/-- `RoomManager.find_identical_fingerprints`: group the complete rooms
(with their indices) by base fingerprint and keep the groups of size
above one. -/
def find_identical_fingerprints (mgr : RoomManager) :
    List (String × List (Nat × Room)) :=
  let indexed := mgr.possibleRooms.enum.filter (fun p => p.2.is_complete)
  let keys := (indexed.map (fun p => p.2.get_fingerprint false)).dedup
  (keys.map (fun fp =>
    (fp, indexed.filter (fun p => p.2.get_fingerprint false == fp)))).filter
    (fun g => g.2.length > 1)

end RoomManager

/-! ## Exploration scheduler (`src/slowly/exploration_strategy.py`).
The slowly variant's `RoomManager` helpers it calls
(`get_absolute_room_mapping`, `get_door_destination_fingerprint`,
`get_absolute_connections`, from `src/slowly/room_manager.py`) are
embedded here; the `Room` surface they use is the one of
`src/ambiguously/room.py` above (the slowly variant shares it). -/

/-- Lexicographic comparison of character lists by code point — the
order Python's `sorted` uses on strings. -/
def lexLe : List Char → List Char → Bool
  | [], _ => true
  | _ :: _, [] => false
  | a :: as, b :: bs =>
    if a.toNat < b.toNat then true
    else if b.toNat < a.toNat then false
    else lexLe as bs

/-- String comparison by code points (`strLe a b` = Python `a <= b`). -/
def strLe (a b : String) : Bool := lexLe a.data b.data

/-- Insert into a sorted list of strings. -/
def insertSorted (a : String) : List String → List String
  | [] => [a]
  | b :: bs => if strLe a b then a :: b :: bs else b :: insertSorted a bs

/-- Sort a list of strings (Python `sorted`). -/
def sortStrings : List String → List String
  | [] => []
  | a :: as => insertSorted a (sortStrings as)

namespace RoomManager

/-- `RoomManager.get_absolute_room_mapping` (slowly variant): distinct
complete fingerprints, sorted, paired with their rank. -/
def get_absolute_room_mapping (mgr : RoomManager) : List (String × Nat) :=
  let fps := ((mgr.possibleRooms.filter (·.is_complete)).map
    (fun r => r.get_fingerprint true)).dedup
  (sortStrings fps).enum.map (fun p => (p.2, p.1))

/-- One observation/path candidate inside
`get_door_destination_fingerprint`: if this observation walks `fromPath`
then `door`, the fingerprint of the complete room recording the
destination path and label. -/
def destFpForObsPath (mgr : RoomManager) (obs : Obs) (fromPath : List Nat)
    (door : Nat) : Option String :=
  if fromPath.length < obs.plan.length
      && obs.plan.take fromPath.length == fromPath
      && obs.plan.getD fromPath.length 0 == door
      && fromPath.length + 1 < obs.rooms.length then
    let destinationLabel := obs.rooms.getD (fromPath.length + 1) 0
    let destinationPath := obs.plan.take (fromPath.length + 1)
    match mgr.possibleRooms.find? (fun r =>
        r.is_complete && r.label == some destinationLabel
          && decide (destinationPath ∈ r.paths)) with
    | some r => some (r.get_fingerprint true)
    | none => none
  else none

/-- `RoomManager.get_door_destination_fingerprint` (slowly variant). -/
def get_door_destination_fingerprint (mgr : RoomManager) (fromRoom : Room)
    (door : Nat) : Option String :=
  mgr.observations.findSome? (fun obs =>
    fromRoom.paths.findSome? (fun fp => destFpForObsPath mgr obs fp door))

/-- `RoomManager.get_absolute_connections` (slowly variant): for each of
the six doors, the absolute id of the destination room, when the
observations pin it down. -/
def get_absolute_connections (mgr : RoomManager) (room : Room) :
    List (Option Nat) :=
  if !room.is_complete then List.replicate 6 none
  else
    let mapping := mgr.get_absolute_room_mapping
    (List.range 6).map (fun door =>
      match mgr.get_door_destination_fingerprint room door with
      | some fp => mapping.lookup fp
      | none => none)

end RoomManager

/-- The "blocking partial room" batch produced by rule 1 of the
scheduler (`priority = "complete_blocking_partial_room_batch"`). -/
structure BlockingBatch where
  fromRoom : Room
  door : Nat
  blockingRoom : Room
  paths : List (List Nat)
deriving DecidableEq, Repr

/-- The direct-verification record of rule 1
(`priority = "verify_complete_room_connection"`). -/
structure VerifyConn where
  fromRoom : Room
  door : Nat
  path : List Nat
deriving DecidableEq, Repr

/-- An entry of `get_unknown_connections_to_verify`. -/
inductive UnknownConn where
  | blocking (b : BlockingBatch)
  | verify (v : VerifyConn)
deriving DecidableEq, Repr

/-- An entry of `get_missing_connections_from_complete_rooms`. -/
structure MissingConn where
  fromRoom : Room
  door : Nat
  targetLabel : Nat
  path : List Nat
deriving DecidableEq, Repr

/-- An entry of `get_partial_rooms_to_explore`. -/
structure PartialExp where
  fromRoom : Room
  door : Nat
  path : List Nat
deriving DecidableEq, Repr

/-- A batch returned by `get_next_exploration_batch`, one constructor per
`"type"` value. -/
inductive ExplorationBatch where
  | unknownConnections (data : UnknownConn)
  | missingConnections (data : MissingConn)
  | partialExplorations (data : PartialExp)
  | incompleteRooms (room : Room) (doors : List Nat) (plans : List (List Nat))
deriving DecidableEq, Repr

/-- The `"priority"` field attached to each batch type. -/
def ExplorationBatch.priority : ExplorationBatch → Nat
  | .unknownConnections _ => 1
  | .missingConnections _ => 2
  | .partialExplorations _ => 3
  | .incompleteRooms _ _ _ => 4

/-- `ExplorationStrategy.__init__`: the scheduler state (the observations
are shared with the room manager in the source, so they live in
`RoomManager` here). -/
structure ExplorationStrategy where
  roomManager : RoomManager
  exploredPaths : List (List Nat)
deriving DecidableEq, Repr

namespace ExplorationStrategy

/-- `ExplorationStrategy.get_missing_connections_from_complete_rooms`. -/
def get_missing_connections_from_complete_rooms
    (strat : ExplorationStrategy) : List MissingConn :=
  (strat.roomManager.get_complete_rooms.filter (fun r => !r.paths.isEmpty)).flatMap
    (fun room =>
      let basePath := room.paths.headD []
      (room.doorLabels.enum.filterMap (fun p =>
        match p.2 with
        | none => none
        | some targetLabel =>
          let completeTargets := strat.roomManager.possibleRooms.filter
            (fun r => r.label == some targetLabel && r.is_complete)
          if completeTargets.isEmpty then
            let targetPath := basePath ++ [p.1]
            if !(strat.exploredPaths.contains targetPath) then
              some ⟨room, p.1, targetLabel, targetPath⟩
            else none
          else none)))

/-- `ExplorationStrategy.get_door_destination_info`: destination path and
label for a door of a room, read off the first matching observation. -/
def get_door_destination_info (strat : ExplorationStrategy) (fromRoom : Room)
    (door : Nat) : Option (List Nat × Nat) :=
  strat.roomManager.observations.findSome? (fun obs =>
    fromRoom.paths.findSome? (fun fromPath =>
      if fromPath.length < obs.plan.length
          && obs.plan.take fromPath.length == fromPath
          && obs.plan.getD fromPath.length 0 == door
          && fromPath.length + 1 < obs.rooms.length then
        some (obs.plan.take (fromPath.length + 1),
          obs.rooms.getD (fromPath.length + 1) 0)
      else none))

/-- `ExplorationStrategy.find_room_by_path_and_label`. -/
def find_room_by_path_and_label (strat : ExplorationStrategy)
    (path : List Nat) (label : Nat) : Option Room :=
  strat.roomManager.possibleRooms.find? (fun r =>
    r.label == some label && decide (path ∈ r.paths))

/-- The inner door loop of `get_unknown_connections_to_verify` for one
complete room: `.inr` is the early `return unknown_connections` taken
when a blocking incomplete destination with unexplored doors is found. -/
def unknownConnDoorLoop (strat : ExplorationStrategy) (room : Room) :
    List (Nat × Option Nat) → List UnknownConn →
      List UnknownConn ⊕ List UnknownConn
  | [], acc => .inl acc
  | (door, conn) :: rest, acc =>
    match conn with
    | some _ => unknownConnDoorLoop strat room rest acc
    | none =>
      let basePath := room.paths.headD []
      let blocking :=
        match strat.get_door_destination_info room door with
        | none => none
        | some (destinationPath, destinationLabel) =>
          match strat.find_room_by_path_and_label destinationPath destinationLabel with
          | none => none
          | some destinationRoom =>
            if !destinationRoom.is_complete then
              let batchPaths := (List.range 6).filterMap (fun d =>
                let p := destinationPath ++ [d]
                if !(strat.exploredPaths.contains p) then some p else none)
              if !batchPaths.isEmpty then
                some (⟨room, door, destinationRoom, batchPaths⟩ : BlockingBatch)
              else none
            else none
      match blocking with
      | some b => .inr (acc ++ [.blocking b])
      | none =>
        unknownConnDoorLoop strat room rest
          (acc ++ [.verify ⟨room, door, basePath ++ [door]⟩])

/-- The outer room loop of `get_unknown_connections_to_verify`. -/
def unknownConnRoomLoop (strat : ExplorationStrategy) :
    List Room → List UnknownConn → List UnknownConn
  | [], acc => acc
  | room :: rest, acc =>
    if room.paths.isEmpty then unknownConnRoomLoop strat rest acc
    else
      let conns := strat.roomManager.get_absolute_connections room
      match unknownConnDoorLoop strat room (conns.enum) acc with
      | .inl acc' => unknownConnRoomLoop strat rest acc'
      | .inr early => early

/-- `ExplorationStrategy.get_unknown_connections_to_verify`. -/
def get_unknown_connections_to_verify (strat : ExplorationStrategy) :
    List UnknownConn :=
  unknownConnRoomLoop strat strat.roomManager.get_complete_rooms []

/-- `ExplorationStrategy.get_partial_rooms_to_explore`. -/
def get_partial_rooms_to_explore (strat : ExplorationStrategy) :
    List PartialExp :=
  (strat.roomManager.get_incomplete_rooms.filter (fun r => !r.paths.isEmpty)).flatMap
    (fun room =>
      let basePath := room.paths.headD []
      (List.range 6).filterMap (fun door =>
        let explorationPath := basePath ++ [door]
        if !(strat.exploredPaths.contains explorationPath) then
          some ⟨room, door, explorationPath⟩
        else none))

/-- `ExplorationStrategy.get_doors_worth_exploring`. -/
def get_doors_worth_exploring (room : Room) : List Nat :=
  if room.paths.isEmpty then [] else room.get_unknown_doors

/-- `ExplorationStrategy.should_explore_path`. -/
def should_explore_path (strat : ExplorationStrategy)
    (plan : List Nat) : Bool :=
  !(strat.exploredPaths.contains plan)

/-- Rule 4 of the scheduler: the first incomplete room with doors worth
exploring and a known path. -/
def fallbackBatch : List Room → Option ExplorationBatch
  | [] => none
  | room :: rest =>
    let doorsToExplore := get_doors_worth_exploring room
    if !doorsToExplore.isEmpty && !room.paths.isEmpty then
      let basePath := room.paths.headD []
      some (.incompleteRooms room doorsToExplore
        (doorsToExplore.map (fun d => basePath ++ [d])))
    else fallbackBatch rest

/-- `ExplorationStrategy.get_next_exploration_batch`: the four-rule
priority cascade. -/
def get_next_exploration_batch (strat : ExplorationStrategy) :
    Option ExplorationBatch :=
  match strat.get_unknown_connections_to_verify with
  | u :: _ => some (.unknownConnections u)
  | [] =>
    match strat.get_missing_connections_from_complete_rooms with
    | m :: _ => some (.missingConnections m)
    | [] =>
      match strat.get_partial_rooms_to_explore with
      | p :: _ => some (.partialExplorations p)
      | [] => fallbackBatch strat.roomManager.get_incomplete_rooms

end ExplorationStrategy

/-! ## The exploration entry point `Problem.explore`
(`src/ambiguously/problem.py`, lines 40-66) -/

/-- The engine state owned by `Problem` that `explore` touches: the
candidate store (with the shared observations log) and the
`explored_paths` set. -/
structure ProblemState where
  mgr : RoomManager
  exploredPaths : List (List Nat)
deriving DecidableEq, Repr

namespace Problem

/-- The plan filter loop at the top of `Problem.explore`: each plan that
passes `should_explore_path` is kept and immediately added to
`explored_paths` — before any oracle call is made. -/
def filterPlans : List (List Nat) → List (List Nat) →
    List (List Nat) × List (List Nat)
  | [], explored => ([], explored)
  | p :: ps, explored =>
    if !(explored.contains p) then
      let r := filterPlans ps (explored ++ [p])
      (p :: r.1, r.2)
    else filterPlans ps explored

/-- The per-result body of `Problem.explore`: append the observation to
the log and fold it into the candidate store. -/
def exploreFold (discoveryOracle : List String → List String)
    (st : ProblemState) (pr : List Nat × List Nat) : ProblemState :=
  let mgr := { st.mgr with
    observations := st.mgr.observations ++ [⟨pr.1, pr.2⟩] }
  { st with mgr := process_observation discoveryOracle mgr pr.1 pr.2 }

/-- `Problem.explore`: filter the plans (marking survivors explored),
issue the batch, and fold each returned observation into the store.
`batchOracle` models `api_client.explore` (`none` = no/failed response),
`discoveryOracle` the nested `explore` calls of return-door discovery. -/
def explore (batchOracle : List (List Nat) → Option (List (List Nat)))
    (discoveryOracle : List String → List String)
    (st : ProblemState) (plans : List (List Nat)) : ProblemState :=
  let fp := filterPlans plans st.exploredPaths
  let newPlans := fp.1
  let st := { st with exploredPaths := fp.2 }
  if newPlans.isEmpty then st
  else
    match batchOracle newPlans with
    | none => st
    | some results =>
      (newPlans.zip results).foldl (exploreFold discoveryOracle) st

end Problem

/-! ## Solution emission (`src/ambiguously/solution_generator.py`,
`generate_solution` lines 68-159).  The stored connection table
`problem.connections` / `problem.get_connection` that the emitter reads
belongs to a `Problem` variant not present in the repository snapshot; it
is passed in as the lookup function `getConn`.  The `startingRoom`
selection (lines 161-174) is outside the claims and not modelled. -/

/-- One emitted half-edge record
`{"from": {"room": _, "door": _}, "to": {"room": _, "door": _}}`. -/
structure ConnRecord where
  fromRoom : Nat
  fromDoor : Nat
  toRoom : Nat
  toDoor : Nat
deriving DecidableEq, Repr

/-- The reverse record of a half-edge. -/
def ConnRecord.reverse (c : ConnRecord) : ConnRecord :=
  ⟨c.toRoom, c.toDoor, c.fromRoom, c.fromDoor⟩

/-- The mutable state of the emission loop: `processed_connections`,
`added_connections` and the growing `solution["connections"]`. -/
structure EmitState where
  processed : List (String × Nat) := []
  added : List ConnRecord := []
  out : List ConnRecord := []
deriving DecidableEq, Repr

/-- One iteration of the emission loop of `generate_solution`, for the
pair (`from_index`, `from_fp`, `from_door`).  `fps` is the sorted list of
distinct complete fingerprints, so a fingerprint's index in `fps` is its
absolute id and also its index in the rooms array. -/
def emitStep (fps : List String) (getConn : String → Nat → Option (String × Nat))
    (st : EmitState) (item : Nat × String × Nat) : EmitState :=
  let fromIdx := item.1
  let fromFp := item.2.1
  let door := item.2.2
  if (fromFp, door) ∈ st.processed then st
  else
    match getConn fromFp door with
    | none => st
    | some (toFp, toDoor) =>
      match fps.findIdx? (fun s => s == toFp) with
      | none => st
      | some toIdx =>
        let c1 : ConnRecord := ⟨fromIdx, door, toIdx, toDoor⟩
        let c2 := c1.reverse
        let st :=
          if c1 ∉ st.added ∧ c2 ∉ st.added then
            if fromIdx = toIdx ∧ door = toDoor then
              { st with out := st.out ++ [c1], added := st.added ++ [c1] }
            else
              { st with out := st.out ++ [c1, c2], added := st.added ++ [c1, c2] }
          else st
        { st with processed := st.processed ++ [(fromFp, door), (toFp, toDoor)] }

/-- The full emission loop: every (fingerprint, door) pair in absolute-id
order, doors `0..5`. -/
def generateConnections (fps : List String)
    (getConn : String → Nat → Option (String × Nat)) : List ConnRecord :=
  ((fps.enum).flatMap (fun p => (List.range 6).map (fun d => (p.1, p.2, d)))).foldl
    (emitStep fps getConn) {} |>.out

/-- The sorted distinct fingerprints of the complete rooms — the key set
of `get_absolute_room_mapping`, which indexes the emitted rooms array. -/
def sortedFingerprints (rooms : List Room) : List String :=
  sortStrings (((rooms.filter (·.is_complete)).map
    (fun r => r.get_fingerprint true)).dedup)

/-- The emitted solution document (rooms array and connections list). -/
structure SolutionDoc where
  rooms : List Nat
  connections : List ConnRecord
deriving DecidableEq, Repr

/-- `SolutionGenerator.generate_solution`: the rooms array holds each
canonical room's label in absolute-id order (`absolute_id_to_room` keeps
the last complete room per fingerprint), and the connections list is the
emission loop's output. -/
def generate_solution (rooms : List Room)
    (getConn : String → Nat → Option (String × Nat)) : SolutionDoc :=
  let fps := sortedFingerprints rooms
  let completeRooms := rooms.filter (·.is_complete)
  let roomsArray := fps.map (fun fp =>
    (((completeRooms.filter (fun r => r.get_fingerprint true == fp)).getLast?).map
      (fun r => r.label.getD 0)).getD 0)
  { rooms := roomsArray, connections := generateConnections fps getConn }

/-! ## Spec-side models and processed-observation predicate -/

/-- Modelled from the spec: one step of "replaying [a path] through
already-complete candidates' known door_labels".  The next candidate is
the unique complete room carrying the label seen through the door. -/
def specReplayStep (mgr : RoomManager) : List Nat → Nat → Option Nat
  | [], current => some current
  | door :: rest, current =>
    match mgr.possibleRooms.get? current with
    | none => none
    | some room =>
      match room.doorLabels.getD door none with
      | none => none
      | some l =>
        match mgr.possibleRooms.enum.filter
            (fun p => p.2.is_complete && p.2.label == some l) with
        | [p] => specReplayStep mgr rest p.1
        | _ => none

/-- Modelled from the spec (§4.1 `find_or_create`): resolve a path by
replaying it from the start candidate through complete candidates'
door labels; `some i` is the index of the terminal candidate when every
door along the path is known and unambiguous. -/
def specReplayThroughComplete (mgr : RoomManager) (path : List Nat) :
    Option Nat :=
  match mgr.possibleRooms.findIdx?
      (fun r => r.is_complete && decide (([] : List Nat) ∈ r.paths)) with
  | none => none
  | some start => specReplayStep mgr path start

/-- Index of the first room recording exactly this `(path, label)` pair —
the room `find_or_create_room_for_path` returns without touching the
store. -/
def firstMatchIdx (mgr : RoomManager) (path : List Nat) (label : Nat) :
    Option Nat :=
  mgr.possibleRooms.findIdx?
    (fun r => decide (path ∈ r.paths) && r.label == some label)

/-- The step part of `already_processed`: walking the observation, every
prefix resolves (first match) to a room whose door label for the next
step is already recorded with the observed value. -/
def stepsProcessed (mgr : RoomManager) (roomsSeq : List Nat) :
    List Nat → Nat → List Nat → Nat → Bool
  | [], _, _, _ => true
  | door :: rest, i, prefixPath, currentIdx =>
    if i + 1 < roomsSeq.length then
      match mgr.possibleRooms.get? currentIdx with
      | none => false
      | some current =>
        (current.doorLabels.getD door none == some (roomsSeq.getD (i + 1) 0)) &&
          (match firstMatchIdx mgr (prefixPath ++ [door]) (roomsSeq.getD (i + 1) 0) with
           | none => false
           | some destIdx =>
             stepsProcessed mgr roomsSeq rest (i + 1) (prefixPath ++ [door]) destIdx)
    else stepsProcessed mgr roomsSeq rest (i + 1) prefixPath currentIdx

/-- An observation `(path, rooms)` counts as already processed in a store
when its start and every prefix are recorded against a room of the
observed label and all the door labels it would write are already
recorded with the same values — exactly the state `process_observation`
leaves behind. -/
def already_processed (mgr : RoomManager) (path rooms : List Nat) : Bool :=
  match rooms with
  | [] => true
  | l0 :: _ =>
    match firstMatchIdx mgr [] l0 with
    | none => false
    | some i0 => stepsProcessed mgr rooms path 0 [] i0

/-- A response tail is well formed for a list of plan operations when it
has one label per operation and each `EditLabel` slot carries the written
value (the oracle echoes every write). -/
def obsMatchesOps : List POp → List Nat → Bool
  | [], [] => true
  | .move _ :: ops, _ :: ls => obsMatchesOps ops ls
  | .edit v :: ops, l :: ls => (l == v) && obsMatchesOps ops ls
  | _, _ => false

/-! ## Shared helper lemmas -/

theorem list_set_same {α : Type _} :
    ∀ (l : List α) (i : Nat) (a : α), l.get? i = some a → l.set i a = l
  | [], i, _, h => by simp at h
  | x :: xs, 0, a, h => by
    simp only [List.get?_cons_zero, Option.some_inj] at h
    simp [h]
  | x :: xs, i + 1, a, h => by
    simp only [List.get?_cons_succ] at h
    simp [list_set_same xs i a h]

theorem updateAt_eq_self {α : Type _} (l : List α) (i : Nat) (f : α → α)
    (a : α) (hget : l.get? i = some a) (hfix : f a = a) :
    updateAt l i f = l := by
  unfold updateAt
  rw [hget]
  show l.set i (f a) = l
  rw [hfix]
  exact list_set_same l i a hget

theorem findIdx?_found {α : Type _} (p : α → Bool) (l : List α) (i : Nat)
    (h : l.findIdx? p = some i) : ∃ a, l.get? i = some a ∧ p a = true := by
  rw [List.findIdx?_eq_some_iff_findIdx_eq] at h
  obtain ⟨hlt, hidx⟩ := h
  refine ⟨l.get ⟨i, hlt⟩, by simp [List.get?_eq_get hlt], ?_⟩
  subst hidx
  simpa using @List.findIdx_getElem _ p l hlt

theorem chooseEditLabel_spec (order : List Nat) (a b : Option Nat) (c : Nat)
    (h : chooseEditLabel order a b = some c) : a ≠ some c ∧ b ≠ some c := by
  unfold chooseEditLabel at h
  have hp := List.find?_some h
  simp only [Bool.and_eq_true, Bool.not_eq_true'] at hp
  constructor
  · intro hc; rw [hc] at hp; simp at hp
  · intro hc; rw [hc] at hp; simp at hp

/-! ## C2 — door-label recording -/

/-- C2: the claim says a conflicting `record_door` is a surfaced no-op;
in the code `Room.set_door_label` silently overwrites.  With door 0
already recorded as label 1, recording label 2 replaces the stored value. -/
theorem C2_counterexample :
    let r : Room := Room.mk (some 0) [[]] [some 1, none, none, none, none, none] none [] []
    (r.set_door_label 0 (some 2)).doorLabels.get? 0 = some (some 2) ∧
      (some (2 : Nat) : Option Nat) ≠ some 1 := by
  exact ⟨rfl, by decide⟩

/-- C2 (amended): for every door `d < 6`, `set_door_label` unconditionally
overwrites `door_labels[d]` with the new value — also when a different
value was already recorded; no contradiction is detected or surfaced. -/
theorem C2_set_door_label_overwrites (r : Room) (d : Nat) (l₁ l₂ : Option Nat)
    (hd : d < 6) (h : r.doorLabels.get? d = some l₁) :
    (r.set_door_label d l₂).doorLabels.get? d = some l₂ := by
  unfold Room.set_door_label
  rw [if_pos (by omega)]
  simp only []
  rw [List.get?_set_eq]
  rw [h]
  rfl

/-- Witness for `C2_set_door_label_overwrites` at door 0 of a concrete
room with a recorded conflicting value. -/
theorem C2_witness :
    ((Room.mk (some 0) [[]] [some 1, none, none, none, none, none] none [] []).set_door_label
      0 (some 3)).doorLabels.get? 0 = some (some 3) :=
  C2_set_door_label_overwrites _ 0 (some 1) (some 3) (by decide) rfl

/-! ## C10 — the explored-paths guard is not atomic with a successful probe -/

theorem filterPlans_snd_eq (plans : List (List Nat)) :
    ∀ explored : List (List Nat),
      (Problem.filterPlans plans explored).2 =
        explored ++ (Problem.filterPlans plans explored).1 := by
  induction plans with
  | nil => intro explored; simp [Problem.filterPlans]
  | cons p ps ih =>
    intro explored
    unfold Problem.filterPlans
    by_cases hc : explored.contains p
    · simp only [hc, Bool.not_true, Bool.false_eq_true, if_false]
      exact ih explored
    · simp only [hc, Bool.not_false, if_true]
      rw [ih (explored ++ [p])]
      simp

theorem mem_filterPlans_snd (plans : List (List Nat))
    (explored : List (List Nat)) (p : List Nat) (hp : p ∈ plans) :
    p ∈ (Problem.filterPlans plans explored).2 := by
  induction plans generalizing explored with
  | nil => cases hp
  | cons q qs ih =>
    unfold Problem.filterPlans
    by_cases hc : explored.contains q
    · simp only [hc, Bool.not_true, Bool.false_eq_true, if_false]
      rcases List.mem_cons.mp hp with hq | hq
      · subst hq
        rw [filterPlans_snd_eq]
        exact List.mem_append.mpr (Or.inl (by simpa using hc))
      · exact ih explored hq
    · simp only [hc, Bool.not_false, if_true]
      rcases List.mem_cons.mp hp with hq | hq
      · subst hq
        rw [filterPlans_snd_eq]
        refine List.mem_append.mpr (Or.inl ?_)
        simp
      · exact ih (explored ++ [q]) hq

theorem mem_filterPlans_snd_of_explored (plans : List (List Nat))
    (explored : List (List Nat)) (q : List Nat) (hq : q ∈ explored) :
    q ∈ (Problem.filterPlans plans explored).2 := by
  rw [filterPlans_snd_eq]
  exact List.mem_append.mpr (Or.inl hq)

theorem foldl_exploreFold_explored (discoveryOracle : List String → List String)
    (l : List (List Nat × List Nat)) :
    ∀ st : ProblemState,
      (l.foldl (Problem.exploreFold discoveryOracle) st).exploredPaths =
        st.exploredPaths := by
  induction l with
  | nil => intro st; rfl
  | cons x xs ih => intro st; exact ih _

theorem explore_explored_eq (batchOracle : List (List Nat) → Option (List (List Nat)))
    (discoveryOracle : List String → List String)
    (st : ProblemState) (plans : List (List Nat)) :
    (Problem.explore batchOracle discoveryOracle st plans).exploredPaths =
      (Problem.filterPlans plans st.exploredPaths).2 := by
  unfold Problem.explore
  by_cases hempty : (Problem.filterPlans plans st.exploredPaths).1.isEmpty
  · simp [hempty]
  · simp only [hempty, Bool.false_eq_true, if_false]
    cases hb : batchOracle (Problem.filterPlans plans st.exploredPaths).1 with
    | none => rfl
    | some results =>
      exact foldl_exploreFold_explored discoveryOracle _ _

/-- C10: every plan that passes the should-explore filter is inserted
into `explored_paths` before the oracle request is issued and stays
there whatever the oracle returns: the final explored set is independent
of the oracle response (in particular a failed call, `none`, marks the
same plans), every submitted plan ends up (or already was) in the set,
nothing is removed, and a later attempt to probe any of the same plans is
silently skipped by `should_explore_path`. -/
theorem C10_explored_paths_not_atomic
    (batchOracle batchOracle' : List (List Nat) → Option (List (List Nat)))
    (discoveryOracle discoveryOracle' : List String → List String)
    (st : ProblemState) (plans : List (List Nat)) :
    ((Problem.explore batchOracle discoveryOracle st plans).exploredPaths =
        (Problem.explore batchOracle' discoveryOracle' st plans).exploredPaths) ∧
      (∀ p ∈ plans,
        p ∈ (Problem.explore batchOracle discoveryOracle st plans).exploredPaths) ∧
      (∀ q ∈ st.exploredPaths,
        q ∈ (Problem.explore batchOracle discoveryOracle st plans).exploredPaths) ∧
      (∀ p ∈ plans,
        ExplorationStrategy.should_explore_path
          ⟨(Problem.explore batchOracle discoveryOracle st plans).mgr,
            (Problem.explore batchOracle discoveryOracle st plans).exploredPaths⟩ p
          = false) := by
  refine ⟨?_, ?_, ?_, ?_⟩
  · rw [explore_explored_eq, explore_explored_eq]
  · intro p hp
    rw [explore_explored_eq]
    exact mem_filterPlans_snd plans st.exploredPaths p hp
  · intro q hq
    rw [explore_explored_eq]
    exact mem_filterPlans_snd_of_explored plans st.exploredPaths q hq
  · intro p hp
    unfold ExplorationStrategy.should_explore_path
    simp only [Bool.not_eq_false]
    rw [explore_explored_eq]
    simpa using mem_filterPlans_snd plans st.exploredPaths p hp

/-- Witness for `C10_explored_paths_not_atomic`: a failing oracle
(`none`) still leaves the submitted plan marked as explored. -/
theorem C10_witness :
    [0, 1] ∈ (Problem.explore (fun _ => none) (fun _ => [])
      ⟨{ roomCount := 2 }, []⟩ [[0, 1]]).exploredPaths :=
  (C10_explored_paths_not_atomic (fun _ => none) (fun _ => none) (fun _ => [])
    (fun _ => []) ⟨{ roomCount := 2 }, []⟩ [[0, 1]]).2.1 [0, 1] (by decide)

/-! ## C1 — the disambiguation verdict mapping -/

/-- C1: the claim says a final label other than `b`'s original label or
the edit value is a fatal protocol violation, never a recoverable or
Same outcome.  In the code it returns `False` — bit-for-bit the Same
verdict, which the caller merges.  Here both rooms have label 0, the
edit label chosen is 2, and the run observing final label 3 returns the
same value as the run observing the edit label (a genuine Same). -/
theorem C1_counterexample :
    (RoomManager.disambiguate_rooms_with_path_navigation (fun _ => ["00203"])
        (Room.mk (some 0) [[0]] [none, none, none, none, none, none] none [0] [])
        (Room.mk (some 0) [[1]] [none, none, none, none, none, none] none [] [])
        = false) ∧
      (RoomManager.disambiguate_rooms_with_path_navigation (fun _ => ["00202"])
        (Room.mk (some 0) [[0]] [none, none, none, none, none, none] none [0] [])
        (Room.mk (some 0) [[1]] [none, none, none, none, none, none] none [] [])
        = false) ∧
      chooseEditLabel [2, 3, 1, 0] (some 0) (some 0) = some 2 ∧
      (parse_response_with_echoes "0[2]01" "00203").1.getLast? = some 3 ∧
      (3 : Nat) ≠ 0 ∧ (3 : Nat) ≠ 2 := by
  exact ⟨by decide, by decide, by decide, by decide, by decide, by decide⟩

/-- C1 (amended): with a chosen edit label `e` and an observed final
label, the disambiguation test returns `true` (Different) exactly when
the final label equals `b`'s label; a final label equal to `e` and any
other final label both return `false` (treated as Same/unclear by the
caller) — no outcome is fatal.  `e` is never `b`'s own label. -/
theorem C1_disambiguation_verdict (oracle : List String → List String)
    (roomA roomB : Room) (e finalLabel : Nat) (resp : String)
    (hA : roomA.paths ≠ []) (hB : roomB.paths ≠ [])
    (hEdit : chooseEditLabel [2, 3, 1, 0] roomA.label roomB.label = some e)
    (hRoot : roomA.pathToRoot ≠ [])
    (hOracle : oracle [pathStr (roomA.paths.headD []) ++ "[" ++ toString e ++ "]"
      ++ pathStr roomA.pathToRoot ++ pathStr (roomB.paths.headD [])] = [resp])
    (hFinal : (parse_response_with_echoes
      (pathStr (roomA.paths.headD []) ++ "[" ++ toString e ++ "]"
        ++ pathStr roomA.pathToRoot ++ pathStr (roomB.paths.headD [])) resp).1.getLast?
      = some finalLabel) :
    (RoomManager.disambiguate_rooms_with_path_navigation oracle roomA roomB
        = (roomB.label == some finalLabel)) ∧
      roomB.label ≠ some e := by
  refine ⟨?_, (chooseEditLabel_spec _ _ _ _ hEdit).2⟩
  unfold RoomManager.disambiguate_rooms_with_path_navigation
  have hA' : roomA.paths.isEmpty = false := by
    simpa [List.isEmpty_iff] using hA
  have hB' : roomB.paths.isEmpty = false := by
    simpa [List.isEmpty_iff] using hB
  have hRoot' : roomA.pathToRoot.isEmpty = false := by
    simpa [List.isEmpty_iff] using hRoot
  rw [hA', hB']
  simp only [Bool.or_self, Bool.false_eq_true, if_false]
  rw [hEdit]
  simp only [hRoot', Bool.false_eq_true, if_false]
  rw [hOracle]
  simp only []
  rw [hFinal]
  cases h : (roomB.label == some finalLabel) <;> simp [h]

/-- Witness for `C1_disambiguation_verdict`: a run observing `b`'s
original label (0) yields the Different verdict. -/
theorem C1_witness :
    RoomManager.disambiguate_rooms_with_path_navigation (fun _ => ["00200"])
      (Room.mk (some 0) [[0]] [none, none, none, none, none, none] none [0] [])
      (Room.mk (some 0) [[1]] [none, none, none, none, none, none] none [] [])
      = ((some 0 : Option Nat) == some 0) :=
  (C1_disambiguation_verdict (fun _ => ["00200"])
    (Room.mk (some 0) [[0]] [none, none, none, none, none, none] none [0] [])
    (Room.mk (some 0) [[1]] [none, none, none, none, none, none] none [] [])
    2 0 "00200" (by decide) (by decide) (by decide) (by decide) rfl (by decide)).1

/-! ## C6 — return-door discovery -/

theorem returnDoorScan_eq_none (temp : Nat) (l : List (String × String))
    (h : ∀ pr ∈ l, Problem.scanMatches temp pr = false) :
    ∀ i, Problem.returnDoorScan temp l i = none := by
  induction l with
  | nil => intro i; rfl
  | cons pr rest ih =>
    intro i
    unfold Problem.returnDoorScan
    rw [h pr (List.mem_cons_self pr rest)]
    simp only [Bool.false_eq_true, if_false]
    exact ih (fun q hq => h q (List.mem_cons_of_mem pr hq)) (i + 1)

theorem returnDoorScan_first (temp : Nat) :
    ∀ (l : List (String × String)) (d i : Nat) (pr : String × String),
      l.get? d = some pr → Problem.scanMatches temp pr = true →
      (∀ d' < d, ∀ pr', l.get? d' = some pr' →
        Problem.scanMatches temp pr' = false) →
      Problem.returnDoorScan temp l i = some (i + d) := by
  intro l
  induction l with
  | nil => intro d i pr h; simp at h
  | cons pr0 rest ih =>
    intro d i pr hget hmatch hbefore
    cases d with
    | zero =>
      simp only [List.get?_cons_zero, Option.some_inj] at hget
      subst hget
      unfold Problem.returnDoorScan
      rw [hmatch]
      simp
    | succ d =>
      have h0 : Problem.scanMatches temp pr0 = false :=
        hbefore 0 (Nat.succ_pos d) pr0 (by simp)
      unfold Problem.returnDoorScan
      rw [h0]
      simp only [Bool.false_eq_true, if_false]
      have := ih d (i + 1) pr (by simpa using hget) hmatch
        (fun d' hd' pr' hget' =>
          hbefore (d' + 1) (Nat.succ_lt_succ hd') pr' (by simpa using hget'))
      rw [this]
      congr 1
      omega

/-- C6: for a freshly observed forward edge, return-door discovery
chooses an edit value `e` outside both rooms' labels, batches exactly
six plans `path-to-parent ++ [e] ++ forward_door ++ d` in one oracle
call, records `child.door_labels[d] = parent.label` (the original
label, not `e`) for the unique door `d` whose final parsed label equals
`e`, and reports the backlink undetermined — returning the child
unchanged, without raising — when no door matches. -/
theorem C6_discover_return_door (oracle : List String → List String)
    (fromRoom toRoom : Room) (forwardDoor temp : Nat)
    (hFrom : fromRoom.paths ≠ []) (hTo : toRoom.paths ≠ [])
    (hTemp : chooseEditLabel [0, 1, 2, 3] fromRoom.label toRoom.label = some temp) :
    fromRoom.label ≠ some temp ∧ toRoom.label ≠ some temp ∧
      (Problem.returnDoorPlans fromRoom temp forwardDoor).length = 6 ∧
      (∀ d pr,
        ((Problem.returnDoorPlans fromRoom temp forwardDoor).zip
          (oracle (Problem.returnDoorPlans fromRoom temp forwardDoor))).get? d
          = some pr →
        Problem.scanMatches temp pr = true →
        (∀ d' < 6, d' ≠ d →
          Problem.scanMatches temp
            (((Problem.returnDoorPlans fromRoom temp forwardDoor).zip
              (oracle (Problem.returnDoorPlans fromRoom temp forwardDoor))).getD d'
              ("", "")) = false) →
        Problem.discover_return_door oracle fromRoom toRoom forwardDoor
          = (toRoom.set_door_label d fromRoom.label, some d)) ∧
      ((∀ pr ∈ (Problem.returnDoorPlans fromRoom temp forwardDoor).zip
          (oracle (Problem.returnDoorPlans fromRoom temp forwardDoor)),
          Problem.scanMatches temp pr = false) →
        Problem.discover_return_door oracle fromRoom toRoom forwardDoor
          = (toRoom, none)) := by
  have hspec := chooseEditLabel_spec _ _ _ _ hTemp
  have hFrom' : fromRoom.paths.isEmpty = false := by
    simpa [List.isEmpty_iff] using hFrom
  have hTo' : toRoom.paths.isEmpty = false := by
    simpa [List.isEmpty_iff] using hTo
  have hlen : ((Problem.returnDoorPlans fromRoom temp forwardDoor).zip
      (oracle (Problem.returnDoorPlans fromRoom temp forwardDoor))).length ≤ 6 := by
    rw [List.length_zip]
    have : (Problem.returnDoorPlans fromRoom temp forwardDoor).length = 6 := by
      simp [Problem.returnDoorPlans]
    omega
  refine ⟨hspec.1, hspec.2, by simp [Problem.returnDoorPlans], ?_, ?_⟩
  · intro d pr hget hmatch hunique
    have hd6 : d < 6 := by
      have := (List.get?_eq_some.mp hget).1
      omega
    unfold Problem.discover_return_door
    rw [hFrom', hTo']
    simp only [Bool.or_self, Bool.false_eq_true, if_false]
    rw [hTemp]
    simp only []
    rw [returnDoorScan_first temp _ d 0 pr hget hmatch ?_]
    · simp
    · intro d' hd' pr' hget'
      have hgd : ((Problem.returnDoorPlans fromRoom temp forwardDoor).zip
          (oracle (Problem.returnDoorPlans fromRoom temp forwardDoor))).getD d' ("", "")
          = pr' := by
        rw [List.getD_eq_get?, hget']
        rfl
      have := hunique d' (by omega) (Nat.ne_of_lt hd')
      rw [hgd] at this
      exact this
  · intro hnone
    unfold Problem.discover_return_door
    rw [hFrom', hTo']
    simp only [Bool.or_self, Bool.false_eq_true, if_false]
    rw [hTemp]
    simp only []
    rw [returnDoorScan_eq_none temp _ hnone 0]

/-- Witness for `C6_discover_return_door`: a batch whose fourth plan is
the unique one echoing the edit value records the parent's label on the
child's door 3. -/
theorem C6_witness :
    Problem.discover_return_door
      (fun _ => ["1200", "1200", "1200", "1202", "1200", "1200"])
      (Room.mk (some 0) [[]] [some 1, some 1, some 1, some 1, some 1, some 1] none [] [])
      (Room.mk (some 1) [[0]] [none, none, none, none, none, none] none [] []) 0
      = ((Room.mk (some 1) [[0]] [none, none, none, none, none, none] none [] []).set_door_label
          3 (some 0), some 3) :=
  ((C6_discover_return_door
    (fun _ => ["1200", "1200", "1200", "1202", "1200", "1200"])
    (Room.mk (some 0) [[]] [some 1, some 1, some 1, some 1, some 1, some 1] none [] [])
    (Room.mk (some 1) [[0]] [none, none, none, none, none, none] none [] []) 0 2
    (by decide) (by decide) (by decide)).2.2.2.1) 3 ("[2]03", "1202")
    (by decide) (by decide) (by decide)

/-! ## C5 — echo separation -/

theorem greedy_counts :
    ∀ (ls es : List Nat), List.Sublist es ls →
      (greedySplit ls es).2.length = es.length ∧
        (greedySplit ls es).1.length = ls.length - es.length := by
  intro ls
  induction ls with
  | nil =>
    intro es h
    rw [List.sublist_nil.mp h]
    exact ⟨rfl, rfl⟩
  | cons l ls ih =>
    intro es h
    cases es with
    | nil =>
      have := ih [] (List.nil_sublist ls)
      simp only [greedySplit]
      refine ⟨this.1, ?_⟩
      simp only [List.length_cons, List.length_nil, this.2]
      omega
    | cons e es' =>
      by_cases heq : l = e
      · subst heq
        have hsub : List.Sublist es' ls := by
          cases h with
          | cons _ h' => exact List.sublist_of_cons_sublist h'
          | cons₂ _ h' => exact h'
        have hle := List.Sublist.length_le hsub
        have := ih es' hsub
        simp only [greedySplit]
        rw [if_pos trivial]
        refine ⟨by simp [this.1], ?_⟩
        simp only [List.length_cons, this.2]
        omega
      · have hsub : List.Sublist (e :: es') ls := by
          cases h with
          | cons _ h' => exact h'
          | cons₂ _ h' => exact absurd rfl heq
        have hle := List.Sublist.length_le hsub
        have := ih (e :: es') hsub
        simp only [greedySplit]
        rw [if_neg heq]
        refine ⟨by simp [this.1], ?_⟩
        simp only [List.length_cons, this.2]
        simp only [List.length_cons] at hle
        omega

theorem obsMatches_sublist :
    ∀ (ops : List POp) (ls : List Nat), obsMatchesOps ops ls = true →
      List.Sublist (editsOfOps ops) ls := by
  intro ops
  induction ops with
  | nil =>
    intro ls _
    exact List.nil_sublist ls
  | cons op ops ih =>
    intro ls h
    cases op with
    | move d =>
      cases ls with
      | nil => simp [obsMatchesOps] at h
      | cons l ls' =>
        simp only [obsMatchesOps] at h
        simpa [editsOfOps] using List.Sublist.cons l (ih ls' h)
    | edit v =>
      cases ls with
      | nil => simp [obsMatchesOps] at h
      | cons l ls' =>
        simp only [obsMatchesOps, Bool.and_eq_true, beq_iff_eq] at h
        have : editsOfOps (POp.edit v :: ops) = v :: editsOfOps ops := by
          simp [editsOfOps]
        rw [this, ← h.1]
        exact List.Sublist.cons₂ l (ih ls' h.2)

theorem obsMatches_length :
    ∀ (ops : List POp) (ls : List Nat), obsMatchesOps ops ls = true →
      ls.length = ops.length := by
  intro ops
  induction ops with
  | nil =>
    intro ls h
    cases ls with
    | nil => rfl
    | cons l ls' => simp [obsMatchesOps] at h
  | cons op ops ih =>
    intro ls h
    cases op with
    | move d =>
      cases ls with
      | nil => simp [obsMatchesOps] at h
      | cons l ls' =>
        simp only [obsMatchesOps] at h
        simp [ih ls' h]
    | edit v =>
      cases ls with
      | nil => simp [obsMatchesOps] at h
      | cons l ls' =>
        simp only [obsMatchesOps, Bool.and_eq_true] at h
        simp [ih ls' h.2]

theorem moves_add_edits (ops : List POp) :
    movesOfOps ops + (editsOfOps ops).length = ops.length := by
  induction ops with
  | nil => rfl
  | cons op ops ih =>
    cases op with
    | move d =>
      simp [movesOfOps, editsOfOps] at *
      omega
    | edit v =>
      simp [movesOfOps, editsOfOps] at *
      omega

/-- C5: the claim says the real/echo split is determined by the count
and position of `EditLabel` ops alone, value-independently, and that the
parser returns the `m+1` real labels.  The parser is value-greedy: for
plan `0[1]` (one move, one edit) and the well-formed observation
`1, 0, 1` (start label 1, room label 0, echo 1), it classifies the real
start label as the echo and returns `[0, 1]` instead of the real labels
`[1, 0]` given by the structural split. -/
theorem C5_counterexample :
    parse_response_with_echoes "0[1]" "101" = ([0, 1], [1]) ∧
      specParseResponse "0[1]" "101" = ([1, 0], [1]) ∧
      ([0, 1] : List Nat) ≠ [1, 0] ∧
      obsMatchesOps (planOps "0[1]".data) [0, 1] = true := by
  exact ⟨by decide, by decide, by decide, by decide⟩

/-- C5 (amended): for every plan with `m` moves and `k` edits and every
well-formed observation (one label per operation plus the start label,
every edit slot echoing its value), the parser returns exactly `m+1`
labels and exactly `k` echoes; but the split is greedy value-matching,
so the returned labels need not be the real room labels
(`C5_counterexample`). -/
theorem C5_parse_counts (plan response : String) (l0 : Nat) (rest : List Nat)
    (hLabels : labelsOfString response = l0 :: rest)
    (hWf : obsMatchesOps (planOps plan.data) rest = true) :
    (parse_response_with_echoes plan response).1.length = 1 + moveCount plan.data ∧
      (parse_response_with_echoes plan response).2.length
        = count_label_edits_in_plan plan := by
  have hlen := obsMatches_length (planOps plan.data) rest hWf
  have hsub : List.Sublist (editLabelsInPlan plan.data) (l0 :: rest) :=
    List.Sublist.cons l0 (obsMatches_sublist (planOps plan.data) rest hWf)
  have hmoves := moves_add_edits (planOps plan.data)
  have hesle : (editLabelsInPlan plan.data).length ≤ (planOps plan.data).length := by
    unfold editLabelsInPlan at *
    omega
  unfold parse_response_with_echoes count_label_edits_in_plan moveCount
  rw [hLabels]
  by_cases hz : (editLabelsInPlan plan.data).length = 0
  · rw [if_pos hz]
    constructor
    · show (l0 :: rest).length = 1 + movesOfOps (planOps plan.data)
      simp only [List.length_cons, hlen]
      have hz' : (editsOfOps (planOps plan.data)).length = 0 := hz
      omega
    · show ([] : List Nat).length = (editLabelsInPlan plan.data).length
      simpa using hz.symm
  · rw [if_neg hz]
    have := greedy_counts (l0 :: rest) (editLabelsInPlan plan.data) hsub
    refine ⟨?_, this.1⟩
    rw [this.2]
    simp only [List.length_cons, hlen]
    unfold editLabelsInPlan at *
    omega

/-- Witness for `C5_parse_counts`: plan `0[1]2` (two moves, one edit)
with well-formed observation `0312` yields three real labels and one
echo. -/
theorem C5_witness :
    (parse_response_with_echoes "0[1]2" "0312").1.length = 1 + moveCount "0[1]2".data ∧
      (parse_response_with_echoes "0[1]2" "0312").2.length
        = count_label_edits_in_plan "0[1]2" :=
  C5_parse_counts "0[1]2" "0312" 0 [3, 1, 2] (by decide) (by decide)

/-! ## C3 — find-or-create -/

theorem mem_add_path_self (r : Room) (path : List Nat) :
    path ∈ (r.add_path path).paths := by
  unfold Room.add_path
  by_cases h : path ∈ r.paths
  · rw [if_pos h]; exact h
  · rw [if_neg h]; simp

/-- C3: the claim says an unmatched path whose doors are all known in
complete candidates is resolved by replay and added to the terminal
candidate.  In the code the replay was removed: with a single complete
room (all doors labelled 0, recording the empty path), the path `[0,0]`
replays to that room under the spec's rule, yet `find_or_create` returns
a freshly allocated candidate (index 1) and the store grows to 2. -/
theorem C3_counterexample :
    specReplayThroughComplete
        (RoomManager.mk 1 [Room.mk (some 0) [[]]
          [some 0, some 0, some 0, some 0, some 0, some 0] none [] []] []) [0, 0]
        = some 0 ∧
      (RoomManager.find_or_create_room_for_path
        (RoomManager.mk 1 [Room.mk (some 0) [[]]
          [some 0, some 0, some 0, some 0, some 0, some 0] none [] []] []) [0, 0] 0).2
        = 1 ∧
      ((RoomManager.find_or_create_room_for_path
        (RoomManager.mk 1 [Room.mk (some 0) [[]]
          [some 0, some 0, some 0, some 0, some 0, some 0] none [] []] []) [0, 0] 0).1.possibleRooms.length
        = 2) := by
  exact ⟨by decide, by decide, by decide⟩

/-- C3 (amended): `find_or_create_room_for_path` returns the first
candidate recording exactly `(path, label)` when one exists (store
untouched); otherwise, when the path has length one, the store has not
outgrown `room_count`, and `room_count ≤ 3`, it adds the path to the
first candidate of that label owning a single-door path; otherwise it
allocates a fresh candidate.  No replay through complete candidates is
performed. -/
theorem C3_find_or_create_cases (mgr : RoomManager) (path : List Nat)
    (label : Nat) :
    (∀ i, firstMatchIdx mgr path label = some i →
      (mgr.find_or_create_room_for_path path label = (mgr, i) ∧
        ∃ r, mgr.possibleRooms.get? i = some r ∧ path ∈ r.paths ∧
          r.label = some label)) ∧
      (firstMatchIdx mgr path label = none →
        path.length = 1 → mgr.possibleRooms.length ≤ mgr.roomCount →
        mgr.roomCount ≤ 3 →
        ∀ i, mgr.possibleRooms.findIdx?
            (fun r => r.label == some label && r.paths.any (fun p => p.length == 1))
            = some i →
          (mgr.find_or_create_room_for_path path label
              = ({ mgr with possibleRooms := (updateAt mgr.possibleRooms i
                  (·.add_path path)) }, i) ∧
            ∃ r, mgr.possibleRooms.get? i = some r ∧ r.label = some label ∧
              (∃ p ∈ r.paths, p.length = 1) ∧ path ∈ (r.add_path path).paths)) ∧
      (firstMatchIdx mgr path label = none →
        (path.length ≠ 1 ∨ mgr.roomCount < mgr.possibleRooms.length ∨
          3 < mgr.roomCount ∨
          mgr.possibleRooms.findIdx?
            (fun r => r.label == some label && r.paths.any (fun p => p.length == 1))
            = none) →
        mgr.find_or_create_room_for_path path label
          = ({ mgr with possibleRooms :=
              mgr.possibleRooms ++ [{ label := some label, paths := [path] }] },
            mgr.possibleRooms.length)) := by
  refine ⟨?_, ?_, ?_⟩
  · intro i hi
    unfold firstMatchIdx at hi
    constructor
    · unfold RoomManager.find_or_create_room_for_path
      rw [hi]
    · obtain ⟨r, hget, hp⟩ := findIdx?_found _ _ _ hi
      simp only [Bool.and_eq_true, decide_eq_true_eq, beq_iff_eq] at hp
      exact ⟨r, hget, hp.1, hp.2⟩
  · intro hnone hlen hsize hcount i hi
    unfold firstMatchIdx at hnone
    constructor
    · unfold RoomManager.find_or_create_room_for_path
      rw [hnone]
      have hguard : (path.length == 1
          && decide (mgr.possibleRooms.length ≤ mgr.roomCount)
          && decide (mgr.roomCount ≤ 3)) = true := by
        simp [hlen, hsize, hcount]
      rw [hguard]
      simp only [if_true, hi]
    · obtain ⟨r, hget, hp⟩ := findIdx?_found _ _ _ hi
      simp only [Bool.and_eq_true, beq_iff_eq, List.any_eq_true] at hp
      refine ⟨r, hget, hp.1, ?_, mem_add_path_self r path⟩
      obtain ⟨p, hmem, hlen1⟩ := hp.2
      exact ⟨p, hmem, by simpa using hlen1⟩
  · intro hnone hfail
    unfold firstMatchIdx at hnone
    unfold RoomManager.find_or_create_room_for_path
    rw [hnone]
    rcases hfail with h | h | h | h
    · have hguard : (path.length == 1
          && decide (mgr.possibleRooms.length ≤ mgr.roomCount)
          && decide (mgr.roomCount ≤ 3)) = false := by
        simp [h]
      rw [hguard]
      simp
    · have hguard : (path.length == 1
          && decide (mgr.possibleRooms.length ≤ mgr.roomCount)
          && decide (mgr.roomCount ≤ 3)) = false := by
        have : ¬ mgr.possibleRooms.length ≤ mgr.roomCount := by omega
        simp [this]
      rw [hguard]
      simp
    · have hguard : (path.length == 1
          && decide (mgr.possibleRooms.length ≤ mgr.roomCount)
          && decide (mgr.roomCount ≤ 3)) = false := by
        have : ¬ mgr.roomCount ≤ 3 := by omega
        simp [this]
      rw [hguard]
      simp
    · by_cases hg : (path.length == 1
          && decide (mgr.possibleRooms.length ≤ mgr.roomCount)
          && decide (mgr.roomCount ≤ 3)) = true
      · rw [hg]
        simp only [if_true, h]
      · rw [Bool.not_eq_true] at hg
        rw [hg]
        simp

/-- Witness for `C3_find_or_create_cases`: a store already recording
`([0], 0)` returns that candidate unchanged. -/
theorem C3_witness :
    RoomManager.find_or_create_room_for_path
      (RoomManager.mk 2 [Room.mk (some 0) [[0]]
        [none, none, none, none, none, none] none [] []] []) [0] 0
      = (RoomManager.mk 2 [Room.mk (some 0) [[0]]
        [none, none, none, none, none, none] none [] []] [], 0) :=
  ((C3_find_or_create_cases
    (RoomManager.mk 2 [Room.mk (some 0) [[0]]
      [none, none, none, none, none, none] none [] []] []) [0] 0).1 0 (by decide)).1

/-! ## C7 — incremental duplicate resolution within a fingerprint group -/

theorem add_path_id (r : Room) (p : List Nat) :
    (r.add_path p).disambiguationId = r.disambiguationId := by
  unfold Room.add_path
  by_cases h : p ∈ r.paths <;> simp [h]

theorem foldl_add_path_id (ps : List (List Nat)) :
    ∀ r : Room,
      (ps.foldl (fun kr path => kr.add_path path) r).disambiguationId
        = r.disambiguationId := by
  induction ps with
  | nil => intro r; rfl
  | cons p ps ih => intro r; exact (ih (r.add_path p)).trans (add_path_id r p)

theorem mergefold_id (rs : List (Nat × Room)) :
    ∀ r : Room,
      (rs.foldl (fun kr pr => pr.2.paths.foldl
        (fun kr path => kr.add_path path) kr) r).disambiguationId
        = r.disambiguationId := by
  induction rs with
  | nil => intro r; rfl
  | cons q qs ih =>
    intro r
    exact (ih _).trans (foldl_add_path_id q.2.paths r)

theorem add_path_mem_mono (r : Room) (p q : List Nat) (h : q ∈ r.paths) :
    q ∈ (r.add_path p).paths := by
  unfold Room.add_path
  by_cases hp : p ∈ r.paths
  · rw [if_pos hp]; exact h
  · rw [if_neg hp]; exact List.mem_append.mpr (Or.inl h)

theorem foldl_add_path_mem_init (ps : List (List Nat)) :
    ∀ (r : Room) (q : List Nat), q ∈ r.paths →
      q ∈ (ps.foldl (fun kr path => kr.add_path path) r).paths := by
  induction ps with
  | nil => intro r q h; exact h
  | cons p ps ih => intro r q h; exact ih _ q (add_path_mem_mono r p q h)

theorem foldl_add_path_mem_elem (ps : List (List Nat)) :
    ∀ (r : Room) (q : List Nat), q ∈ ps →
      q ∈ (ps.foldl (fun kr path => kr.add_path path) r).paths := by
  induction ps with
  | nil => intro r q h; cases h
  | cons p ps ih =>
    intro r q h
    rcases List.mem_cons.mp h with h | h
    · subst h
      exact foldl_add_path_mem_init ps _ q (mem_add_path_self r q)
    · exact ih _ q h

theorem mergefold_mem_init (rs : List (Nat × Room)) :
    ∀ (r : Room) (q : List Nat), q ∈ r.paths →
      q ∈ (rs.foldl (fun kr pr => pr.2.paths.foldl
        (fun kr path => kr.add_path path) kr) r).paths := by
  induction rs with
  | nil => intro r q h; exact h
  | cons p ps ih =>
    intro r q h
    exact ih _ q (foldl_add_path_mem_init p.2.paths r q h)

theorem mergefold_mem_elem (rs : List (Nat × Room)) :
    ∀ (r : Room) (pr : Nat × Room) (q : List Nat), pr ∈ rs → q ∈ pr.2.paths →
      q ∈ (rs.foldl (fun kr pr => pr.2.paths.foldl
        (fun kr path => kr.add_path path) kr) r).paths := by
  induction rs with
  | nil => intro r pr q h; cases h
  | cons p ps ih =>
    intro r pr q h hq
    rcases List.mem_cons.mp h with h | h
    · subst h
      exact mergefold_mem_init ps _ q (foldl_add_path_mem_elem pr.2.paths r q hq)
    · exact ih _ pr q h hq

theorem incremental_ids (verdict : Room → Room → Option Bool) :
    ∀ (todo confirmed : List (Nat × Room)) (nextId : Nat),
      (∀ k, k < confirmed.length →
        (confirmed.get? k).map (fun p => p.2.disambiguationId) = some (some k)) →
      nextId = confirmed.length →
      ∀ k, k < (RoomManager.incrementalDisambiguation verdict todo confirmed nextId).length →
        ((RoomManager.incrementalDisambiguation verdict todo confirmed nextId).get? k).map
          (fun p => p.2.disambiguationId) = some (some k) := by
  intro todo
  induction todo with
  | nil =>
    intro confirmed nextId hconf _ k hk
    exact hconf k hk
  | cons ir rest ih =>
    intro confirmed nextId hconf hnext k hk
    obtain ⟨idx, room⟩ := ir
    by_cases hsame : (confirmed.any
      (RoomManager.sameAsExistingTest verdict { room with disambiguationId := none })) = true
    · unfold RoomManager.incrementalDisambiguation at hk ⊢
      rw [hsame] at hk ⊢
      simp only [if_true] at hk ⊢
      exact ih confirmed nextId hconf hnext k hk
    · rw [Bool.not_eq_true] at hsame
      unfold RoomManager.incrementalDisambiguation at hk ⊢
      rw [hsame] at hk ⊢
      simp only [Bool.false_eq_true, if_false] at hk ⊢
      refine ih _ (nextId + 1) ?_ (by simp [hnext]) k hk
      intro j hj
      rw [List.length_append, List.length_singleton] at hj
      by_cases hjlt : j < confirmed.length
      · rw [List.get?_append hjlt]
        exact hconf j hjlt
      · have hje : j = confirmed.length := by omega
        subst hje
        rw [List.get?_concat_length]
        simp [hnext]

/-- C7: the claim says a candidate stopping at its first Same verdict is
merged into THAT representative.  Here C tests Different against A and
Same against B, yet its path `[2]` is merged into A (the group's first
confirmed room), and B keeps only its own path. -/
theorem C7_counterexample :
    RoomManager.processIdenticalGroup
        (fun a b => if a.paths = [[1]] ∧ b.paths = [[2]] then some false else some true)
        [(0, Room.mk (some 0) [[0]] [some 0, some 0, some 0, some 0, some 0, some 0] none [] []),
          (1, Room.mk (some 0) [[1]] [some 0, some 0, some 0, some 0, some 0, some 0] none [] []),
          (2, Room.mk (some 0) [[2]] [some 0, some 0, some 0, some 0, some 0, some 0] none [] [])]
        = [(0, Room.mk (some 0) [[0], [2]]
            [some 0, some 0, some 0, some 0, some 0, some 0] (some 0) [] []),
          (1, Room.mk (some 0) [[1]]
            [some 0, some 0, some 0, some 0, some 0, some 0] (some 1) [] [])] ∧
      (fun (a b : Room) =>
          if a.paths = [[1]] ∧ b.paths = [[2]] then some false else some true)
        (Room.mk (some 0) [[1]] [some 0, some 0, some 0, some 0, some 0, some 0] none [] [])
        (Room.mk (some 0) [[2]] [some 0, some 0, some 0, some 0, some 0, some 0] none [] [])
        = some false ∧
      (fun (a b : Room) =>
          if a.paths = [[1]] ∧ b.paths = [[2]] then some false else some true)
        (Room.mk (some 0) [[0]] [some 0, some 0, some 0, some 0, some 0, some 0] none [] [])
        (Room.mk (some 0) [[2]] [some 0, some 0, some 0, some 0, some 0, some 0] none [] [])
        = some true ∧
      ([2] : List Nat) ∉ [[1]] := by
  exact ⟨by decide, by decide, by decide, by decide⟩

/-- C7 (amended): within a fingerprint-identical group, each candidate is
tested in turn against the confirmed-distinct representatives, stopping
at the first Same verdict; surviving candidates receive consecutive
disambiguation ids 0, 1, 2, …; but every merged candidate's paths are
folded into the group's FIRST confirmed representative (not necessarily
the representative it matched), the other representatives staying
untouched. -/
theorem C7_group_processing (verdict : Room → Room → Option Bool)
    (rooms : List (Nat × Room)) :
    (∀ k, k < (RoomManager.processIdenticalGroup verdict rooms).length →
      ((RoomManager.processIdenticalGroup verdict rooms).get? k).map
        (fun p => p.2.disambiguationId) = some (some k)) ∧
      ((RoomManager.processIdenticalGroup verdict rooms).tail
        = (RoomManager.incrementalDisambiguation verdict rooms [] 0).tail) ∧
      (∀ pr ∈ rooms,
        pr.1 ∉ (RoomManager.incrementalDisambiguation verdict rooms [] 0).map (·.1) →
        ∀ q ∈ pr.2.paths, ∀ kp,
          ((RoomManager.processIdenticalGroup verdict rooms).get? 0) = some kp →
          q ∈ kp.2.paths) := by
  have hids := incremental_ids verdict rooms [] 0 (fun k hk => by cases hk) rfl
  cases hconf : RoomManager.incrementalDisambiguation verdict rooms [] 0 with
  | nil =>
    have hre : RoomManager.processIdenticalGroup verdict rooms = [] := by
      unfold RoomManager.processIdenticalGroup
      rw [hconf]
    refine ⟨?_, ?_, ?_⟩
    · intro k hk
      rw [hre] at hk
      cases hk
    · simp only [hre, hconf]
    · intro pr hpr hnot q hq kp hkp
      rw [hre] at hkp
      cases hkp
  | cons keeper others =>
    have hre : RoomManager.processIdenticalGroup verdict rooms =
        (keeper.1, ((rooms.filter (fun p =>
          !((((keeper :: others) : List (Nat × Room)).map (·.1)).contains p.1))).foldl
          (fun kr pr => pr.2.paths.foldl (fun kr path => kr.add_path path) kr)
          keeper.2)) :: others := by
      unfold RoomManager.processIdenticalGroup
      rw [hconf]
    rw [hconf] at hids
    refine ⟨?_, ?_, ?_⟩
    · intro k hk
      rw [hre] at hk ⊢
      cases k with
      | zero =>
        have h0 := hids 0 (by simp)
        simp only [List.get?_cons_zero] at h0 ⊢
        simp only [Option.map_some'] at h0 ⊢
        rw [mergefold_id]
        exact h0
      | succ k =>
        simp only [List.get?_cons_succ]
        have := hids (k + 1) (by simp only [List.length_cons] at hk ⊢; omega)
        simpa using this
    · simp only [hre, hconf, List.tail_cons]
    · intro pr hpr hnot q hq kp hkp
      rw [hre] at hkp
      simp only [List.get?_cons_zero, Option.some_inj] at hkp
      subst hkp
      refine mergefold_mem_elem _ keeper.2 pr q ?_ hq
      refine List.mem_filter.mpr ⟨hpr, ?_⟩
      simpa using hnot

/-- Witness for `C7_group_processing`: in the three-room group the kept
head carries disambiguation id 0. -/
theorem C7_witness :
    ((RoomManager.processIdenticalGroup
      (fun a b => if a.paths = [[1]] ∧ b.paths = [[2]] then some false else some true)
      [(0, Room.mk (some 0) [[0]] [some 0, some 0, some 0, some 0, some 0, some 0] none [] []),
        (1, Room.mk (some 0) [[1]] [some 0, some 0, some 0, some 0, some 0, some 0] none [] []),
        (2, Room.mk (some 0) [[2]] [some 0, some 0, some 0, some 0, some 0, some 0] none [] [])]).get?
      0).map (fun p => p.2.disambiguationId) = some (some 0) :=
  (C7_group_processing
    (fun a b => if a.paths = [[1]] ∧ b.paths = [[2]] then some false else some true)
    [(0, Room.mk (some 0) [[0]] [some 0, some 0, some 0, some 0, some 0, some 0] none [] []),
      (1, Room.mk (some 0) [[1]] [some 0, some 0, some 0, some 0, some 0, some 0] none [] []),
      (2, Room.mk (some 0) [[2]] [some 0, some 0, some 0, some 0, some 0, some 0] none [] [])]).1
    0 (by decide)

/-! ## C8 — scheduler priority cascade -/

theorem fallbackBatch_priority :
    ∀ (rooms : List Room) (b : ExplorationBatch),
      ExplorationStrategy.fallbackBatch rooms = some b → b.priority = 4 := by
  intro rooms
  induction rooms with
  | nil => intro b h; cases h
  | cons r rest ih =>
    intro b h
    unfold ExplorationStrategy.fallbackBatch at h
    dsimp only [] at h
    split at h
    · cases h; rfl
    · exact ih b h

/-- C8: each call of `get_next_exploration_batch` returns at most one
batch, chosen by strict priority with the first matching rule winning:
an unknown-connection verification batch (priority 1, including the
blocking-room six-door batch produced inside rule 1) if one exists;
otherwise a missing-connection probe (priority 2); otherwise a
partial-room expansion (priority 3); otherwise the incomplete-room
fallback (priority 4) or nothing. -/
theorem C8_scheduler_priority (strat : ExplorationStrategy) :
    (∀ u rest, strat.get_unknown_connections_to_verify = u :: rest →
      strat.get_next_exploration_batch = some (.unknownConnections u) ∧
        (ExplorationBatch.unknownConnections u).priority = 1) ∧
      (strat.get_unknown_connections_to_verify = [] →
        ∀ m rest, strat.get_missing_connections_from_complete_rooms = m :: rest →
          strat.get_next_exploration_batch = some (.missingConnections m) ∧
            (ExplorationBatch.missingConnections m).priority = 2) ∧
      (strat.get_unknown_connections_to_verify = [] →
        strat.get_missing_connections_from_complete_rooms = [] →
        ∀ p rest, strat.get_partial_rooms_to_explore = p :: rest →
          strat.get_next_exploration_batch = some (.partialExplorations p) ∧
            (ExplorationBatch.partialExplorations p).priority = 3) ∧
      (strat.get_unknown_connections_to_verify = [] →
        strat.get_missing_connections_from_complete_rooms = [] →
        strat.get_partial_rooms_to_explore = [] →
        strat.get_next_exploration_batch
            = ExplorationStrategy.fallbackBatch strat.roomManager.get_incomplete_rooms ∧
          ∀ b, strat.get_next_exploration_batch = some b → b.priority = 4) := by
  refine ⟨?_, ?_, ?_, ?_⟩
  · intro u rest h
    refine ⟨?_, rfl⟩
    unfold ExplorationStrategy.get_next_exploration_batch
    rw [h]
  · intro h0 m rest h
    refine ⟨?_, rfl⟩
    unfold ExplorationStrategy.get_next_exploration_batch
    rw [h0, h]
  · intro h0 h1 p rest h
    refine ⟨?_, rfl⟩
    unfold ExplorationStrategy.get_next_exploration_batch
    rw [h0, h1, h]
  · intro h0 h1 h2
    have hfb : strat.get_next_exploration_batch
        = ExplorationStrategy.fallbackBatch strat.roomManager.get_incomplete_rooms := by
      unfold ExplorationStrategy.get_next_exploration_batch
      rw [h0, h1, h2]
    refine ⟨hfb, ?_⟩
    intro b hb
    rw [hfb] at hb
    exact fallbackBatch_priority _ b hb

/-- Witness for `C8_scheduler_priority`: with an empty candidate store
every rule list is empty and the scheduler falls through to rule 4
(which yields nothing). -/
theorem C8_witness :
    (ExplorationStrategy.mk (RoomManager.mk 3 [] []) []).get_next_exploration_batch
      = ExplorationStrategy.fallbackBatch
        (RoomManager.mk 3 [] []).get_incomplete_rooms :=
  ((C8_scheduler_priority (ExplorationStrategy.mk (RoomManager.mk 3 [] []) [])).2.2.2
    rfl rfl rfl).1

/-! ## C4 — solution emission invariants -/

theorem emitStep_revclosed (fps : List String)
    (getConn : String → Nat → Option (String × Nat)) (st : EmitState)
    (item : Nat × String × Nat)
    (h : ∀ c ∈ st.out, c.reverse ∈ st.out) :
    ∀ c ∈ (emitStep fps getConn st item).out,
      c.reverse ∈ (emitStep fps getConn st item).out := by
  unfold emitStep
  dsimp only []
  split
  · exact h
  · split
    · exact h
    · split
      · exact h
      · rename_i toFp toDoor _ toIdx _
        split
        · split
          · rename_i hadded hself
            intro c hc
            simp only [List.mem_append, List.mem_cons, List.not_mem_nil, or_false] at hc ⊢
            rcases hc with hc | hc
            · exact Or.inl (h c hc)
            · subst hc
              refine Or.inr ?_
              unfold ConnRecord.reverse
              obtain ⟨h1, h2⟩ := hself
              subst h1
              subst h2
              rfl
          · rename_i hadded hself
            intro c hc
            simp only [List.mem_append, List.mem_cons, List.not_mem_nil, or_false] at hc ⊢
            rcases hc with hc | hc | hc
            · exact Or.inl (h c hc)
            · subst hc
              exact Or.inr (Or.inr rfl)
            · subst hc
              exact Or.inr (Or.inl rfl)
        · exact h

theorem foldl_emit_revclosed (fps : List String)
    (getConn : String → Nat → Option (String × Nat))
    (items : List (Nat × String × Nat)) :
    ∀ st : EmitState, (∀ c ∈ st.out, c.reverse ∈ st.out) →
      ∀ c ∈ (items.foldl (emitStep fps getConn) st).out,
        c.reverse ∈ (items.foldl (emitStep fps getConn) st).out := by
  induction items with
  | nil => intro st h; exact h
  | cons it items ih =>
    intro st h
    exact ih (emitStep fps getConn st it) (emitStep_revclosed fps getConn st it h)

/-- C4: the claim demands both bidirectionality and exactly-once
total coverage (6×N half-edges).  With one complete room and an empty
stored-connection table, the emitted document has 1 room and an empty
connections list — 0 half-edges instead of 6×1, and door (0,0) never
appears as a `from`; the generator skips unstored pairs instead of
failing. -/
theorem C4_counterexample :
    (generate_solution
        [Room.mk (some 0) [[]] [some 0, some 0, some 0, some 0, some 0, some 0] none [] []]
        (fun _ _ => none)).rooms.length = 1 ∧
      (generate_solution
        [Room.mk (some 0) [[]] [some 0, some 0, some 0, some 0, some 0, some 0] none [] []]
        (fun _ _ => none)).connections = [] ∧
      (0 : Nat) ≠ 6 * 1 := by
  exact ⟨by decide, by decide, by decide⟩

/-- C4 (amended): every emitted solution document is bidirectionally
closed — each connection record's reverse record is present (self-loops
being their own reverse) — but the exactly-once-`from` and 6×N half-edge
totals are not guaranteed: a (room, door) pair with no stored connection
is silently skipped (`C4_counterexample`). -/
theorem C4_bidirectional (rooms : List Room)
    (getConn : String → Nat → Option (String × Nat)) :
    ∀ c ∈ (generate_solution rooms getConn).connections,
      c.reverse ∈ (generate_solution rooms getConn).connections := by
  intro c hc
  unfold generate_solution at hc ⊢
  simp only [] at hc ⊢
  unfold generateConnections at hc ⊢
  exact foldl_emit_revclosed _ _ _ {} (fun c hc => by cases hc) c hc

/-- Witness for `C4_bidirectional`: with every door stored as a same-door
self-loop, the record for door 0 is present and is its own reverse. -/
theorem C4_witness :
    (ConnRecord.mk 0 0 0 0).reverse ∈ (generate_solution
      [Room.mk (some 0) [[]] [some 0, some 0, some 0, some 0, some 0, some 0] none [] []]
      (fun fp d => some (fp, d))).connections :=
  C4_bidirectional
    [Room.mk (some 0) [[]] [some 0, some 0, some 0, some 0, some 0, some 0] none [] []]
    (fun fp d => some (fp, d)) (ConnRecord.mk 0 0 0 0) (by decide)

/-! ## C9 — idempotence of observation processing -/

theorem getD_some_to_get? (l : List (Option Nat)) (i : Nat) (v : Nat)
    (h : l.getD i none = some v) : l.get? i = some (some v) := by
  rw [List.getD_eq_get?] at h
  cases hg : l.get? i with
  | none => rw [hg] at h; simp at h
  | some x => rw [hg] at h; simp only [Option.getD_some] at h; rw [h]

theorem set_door_label_same (r : Room) (door : Nat) (v : Option Nat)
    (h : r.doorLabels.get? door = some v) : r.set_door_label door v = r := by
  unfold Room.set_door_label
  by_cases hd : door ≤ 5
  · rw [if_pos hd, list_set_same _ _ _ h]
  · rw [if_neg hd]

theorem find_or_create_of_firstMatch (mgr : RoomManager) (path : List Nat)
    (label i : Nat) (h : firstMatchIdx mgr path label = some i) :
    mgr.find_or_create_room_for_path path label = (mgr, i) := by
  unfold firstMatchIdx at h
  unfold RoomManager.find_or_create_room_for_path
  rw [h]

theorem stepsProcessed_fixpoint (oracle : List String → List String)
    (mgr : RoomManager) (roomsSeq : List Nat) :
    ∀ (doors : List Nat) (i : Nat) (prefixPath : List Nat) (currentIdx : Nat),
      stepsProcessed mgr roomsSeq doors i prefixPath currentIdx = true →
      Problem.processSteps oracle roomsSeq doors i prefixPath mgr currentIdx = mgr := by
  intro doors
  induction doors with
  | nil =>
    intro i prefixPath currentIdx _
    rfl
  | cons door rest ih =>
    intro i prefixPath currentIdx h
    unfold stepsProcessed at h
    unfold Problem.processSteps
    dsimp only []
    by_cases hlt : i + 1 < roomsSeq.length
    · rw [if_pos hlt] at h ⊢
      cases hget : mgr.possibleRooms.get? currentIdx with
      | none =>
        rw [hget] at h
        cases h
      | some current =>
        rw [hget] at h
        simp only [Bool.and_eq_true, beq_iff_eq] at h
        obtain ⟨hdoor, hrest⟩ := h
        cases hfm : firstMatchIdx mgr (prefixPath ++ [door])
            (roomsSeq.getD (i + 1) 0) with
        | none =>
          rw [hfm] at hrest
          cases hrest
        | some destIdx =>
          rw [hfm] at hrest
          have hgetD : mgr.possibleRooms.getD currentIdx {} = current := by
            rw [List.getD_eq_get?, hget]
            rfl
          have hget2 : current.doorLabels.get? door
              = some (some (roomsSeq.getD (i + 1) 0)) :=
            getD_some_to_get? _ _ _ hdoor
          have hfix : current.set_door_label door (some (roomsSeq.getD (i + 1) 0))
              = current :=
            set_door_label_same current door _ hget2
          have hmgr : ({ mgr with possibleRooms := (updateAt mgr.possibleRooms
              currentIdx (fun r =>
                r.set_door_label door (some (roomsSeq.getD (i + 1) 0)))) } : RoomManager)
              = mgr := by
            rw [updateAt_eq_self mgr.possibleRooms currentIdx
              (fun r => r.set_door_label door (some (roomsSeq.getD (i + 1) 0)))
              current hget hfix]
          rw [hgetD, hmgr]
          rw [find_or_create_of_firstMatch mgr (prefixPath ++ [door]) _ destIdx hfm]
          rw [hgetD, hdoor]
          simp only [Option.isNone_some, Bool.false_and, Bool.false_eq_true, if_false]
          exact ih (i + 1) (prefixPath ++ [door]) destIdx hrest
    · rw [if_neg hlt] at h ⊢
      exact ih (i + 1) prefixPath currentIdx h

/-- C9: processing an already-processed observation is the identity on
the candidate store: when every prefix of the observation is recorded
against a room of the observed label and every door value it would write
is already recorded (the state `process_observation` leaves behind),
re-processing creates no candidate, rewrites no door label, and triggers
no return-door discovery — for any oracle. -/
theorem C9_reprocessing_identity (oracle : List String → List String)
    (mgr : RoomManager) (path rooms : List Nat)
    (h : already_processed mgr path rooms = true) :
    Problem.process_observation oracle mgr path rooms = mgr := by
  cases rooms with
  | nil => rfl
  | cons l0 rest =>
    unfold already_processed at h
    unfold Problem.process_observation
    dsimp only [] at h ⊢
    cases hfm : firstMatchIdx mgr [] l0 with
    | none =>
      rw [hfm] at h
      cases h
    | some i0 =>
      rw [hfm] at h
      rw [find_or_create_of_firstMatch mgr [] l0 i0 hfm]
      exact stepsProcessed_fixpoint oracle mgr (l0 :: rest) path 0 [] i0 h

/-- Witness for `C9_reprocessing_identity`: the store produced by
processing `(path [0], rooms [0,1])` from an empty store absorbs a
second processing of the same observation unchanged. -/
theorem C9_witness :
    Problem.process_observation (fun _ => [])
      (RoomManager.mk 2
        [Room.mk (some 0) [[]] [some 1, none, none, none, none, none] none [] [],
          Room.mk (some 1) [[0]] [none, none, none, none, none, none] none [] []] [])
      [0] [0, 1]
      = RoomManager.mk 2
        [Room.mk (some 0) [[]] [some 1, none, none, none, none, none] none [] [],
          Room.mk (some 1) [[0]] [none, none, none, none, none, none] none [] []] [] :=
  C9_reprocessing_identity (fun _ => [])
    (RoomManager.mk 2
      [Room.mk (some 0) [[]] [some 1, none, none, none, none, none] none [] [],
        Room.mk (some 1) [[0]] [none, none, none, none, none, none] none [] []] [])
    [0] [0, 1] (by decide)

end RoomExploration
